import Mathlib

/-!
Shallow embedding of the kenya-agri-farmwise repository (crop-disease
pipeline): the Flask prediction endpoint in
src/functions/predict_disease/main.py, the cold-start bootstrap at module
level of the same file, the dataset-preparation script
src/ml/prepare_dataset.py, and the epoch split of src/ml/train_model.py.

Python strings are modelled as List Char (converted from Lean String with
String.toList); Python floats as rationals; fallible library calls as
Except String results supplied by an environment record.
-/

/-- Decidable equality for Except results, used to evaluate the embedded
functions on concrete inputs. -/
instance {e a : Type} [DecidableEq e] [DecidableEq a] : DecidableEq (Except e a) :=
  fun x y =>
    match x, y with
    | .ok v, .ok w => if h : v = w then isTrue (by rw [h]) else isFalse (by simp [h])
    | .error v, .error w =>
      if h : v = w then isTrue (by rw [h]) else isFalse (by simp [h])
    | .ok _, .error _ => isFalse (by simp)
    | .error _, .ok _ => isFalse (by simp)

/-! ### Python string primitives -/

/-- Embedding of Python str.split(sep) for a non-empty separator, with a
fuel argument (fuel = length of the scanned list suffices); scans left to
right, splitting at each non-overlapping occurrence of sep. -/
def pySplitAux (sep : List Char) : Nat → List Char → List Char → List (List Char)
  | _, acc, [] => [acc.reverse]
  | 0, acc, s => [acc.reverse ++ s]
  | fuel+1, acc, c :: rest =>
    if sep ≠ [] ∧ sep.isPrefixOf (c :: rest)
    then acc.reverse :: pySplitAux sep fuel [] ((c :: rest).drop sep.length)
    else pySplitAux sep fuel (c :: acc) rest

/-- Python s.split(sep) on character lists (sep assumed non-empty, as in
the source, where the separators are three underscores or a slash). -/
def pySplitOn (s sep : List Char) : List (List Char) :=
  pySplitAux sep s.length [] s

/-- Embedding of Python str.replace(old, new) for non-empty old, with a
fuel argument (fuel = length of the scanned list suffices). -/
def pyReplaceAux (sep repl : List Char) : Nat → List Char → List Char
  | _, [] => []
  | 0, s => s
  | fuel+1, c :: rest =>
    if sep.isPrefixOf (c :: rest)
    then repl ++ pyReplaceAux sep repl fuel ((c :: rest).drop sep.length)
    else c :: pyReplaceAux sep repl fuel rest

/-- Python s.replace(old, new) on character lists (old assumed non-empty,
as in the source, where old is three underscores or one underscore). -/
def pyReplace (s sep repl : List Char) : List Char :=
  pyReplaceAux sep repl s.length s

/-- Python s.endswith(tuple-of-suffixes): true when some listed suffix is
a suffix of s. -/
def pyEndsWithAny (s : List Char) (exts : List (List Char)) : Bool :=
  exts.any (fun e => e.isSuffixOf s)

/-! ### Python floats (as rationals) and numeric library calls -/

/-- Round-half-to-even on rationals, the tie-breaking rule of Python
round() on floats. -/
def roundHalfEven (q : ℚ) : ℤ :=
  if q - ⌊q⌋ < 1/2 then ⌊q⌋
  else if 1/2 < q - ⌊q⌋ then ⌊q⌋ + 1
  else if ⌊q⌋ % 2 = 0 then ⌊q⌋ else ⌊q⌋ + 1

/-- Python round(x, 2): round to two decimal places. -/
def pyRound2 (q : ℚ) : ℚ :=
  (roundHalfEven (q * 100) : ℚ) / 100

/-- Auxiliary scan for np.argmax: keeps the index of the first strictly
largest element seen. -/
def argmaxAux : List ℚ → ℚ → Nat → Nat → Nat
  | [], _, _, best => best
  | x :: xs, bv, i, best =>
    if bv < x then argmaxAux xs x (i+1) i else argmaxAux xs bv (i+1) best

/-- np.argmax over a vector: index of the first maximal entry; raises on
an empty vector. -/
def npArgmax : List ℚ → Except String Nat
  | [] => .error "attempt to get argmax of an empty sequence"
  | x :: xs => .ok (argmaxAux xs x 1 0)

/-- random.choice(seq): an element of seq selected by the random draw i
(any draw selects a valid index); raises on an empty sequence. -/
def randomChoice (l : List String) (i : Nat) : Except String String :=
  match l with
  | [] => .error "Cannot choose from an empty sequence"
  | x :: xs => .ok ((x :: xs).getD (i % (x :: xs).length) x)

/-- random.uniform(a, b): a + (b - a) * u where u is the underlying
random.random() draw in [0, 1]. -/
def randomUniform (a b u : ℚ) : ℚ := a + (b - a) * u

/-! ### JSON values as parsed by request.get_json() -/

/-- A parsed JSON value (a body parsing to JSON null is folded into the
absent case, as request.get_json() returns None for it). -/
inductive PyJson where
  | bool (b : Bool)
  | num (q : ℚ)
  | str (s : String)
  | arr (elems : List PyJson)
  | obj (fields : List (String × PyJson))

/-- Python truthiness of a parsed JSON value. -/
def PyJson.truthy : PyJson → Bool
  | .bool b => b
  | .num q => q != 0
  | .str s => s != ""
  | .arr l => !l.isEmpty
  | .obj f => !f.isEmpty

/-- Python membership test (key in x): key lookup on dicts, element
equality on lists, substring test on strings; a TypeError on numbers and
booleans. -/
def pyContainsKey : PyJson → String → Except String Bool
  | .obj fields, k => .ok (fields.any (fun p => p.1 == k))
  | .arr elems, k =>
    .ok (elems.any (fun e => match e with | .str s => s == k | _ => false))
  | .str s, k => .ok (decide (k.toList <:+: s.toList))
  | .num _, _ => .error "argument of type int is not iterable"
  | .bool _, _ => .error "argument of type bool is not iterable"

/-- Python subscript x[key] with a string key: dict lookup (KeyError when
absent); a TypeError on every non-dict value. -/
def pySubscript : PyJson → String → Except String PyJson
  | .obj fields, k =>
    match fields.find? (fun p => p.1 == k) with
    | some p => .ok p.2
    | none => .error ("KeyError: " ++ k)
  | .str _, _ => .error "string indices must be integers"
  | .arr _, _ => .error "list indices must be integers or slices, not str"
  | .num _, _ => .error "int object is not subscriptable"
  | .bool _, _ => .error "bool object is not subscriptable"

/-! ### Disease-info table and response shapes -/

/-- One value of the DISEASE_INFO table (a JSON dict; every field is read
with dict.get and a default in the source, so each is optional). -/
structure InfoDict where
  name : Option String
  severity : Option String
  symptoms : Option (List String)
  treatment : Option (List String)
  prevention : Option (List String)

/-- The fixed 4-element symptoms list of the generic placeholder record
(main.py lines 137-142). -/
def genericSymptoms : List String :=
  ["Leaf discoloration or spots", "Wilting or drooping leaves",
   "Stunted growth", "Unusual leaf patterns"]

/-- The fixed 4-element treatment list of the generic placeholder record
(main.py lines 143-148). -/
def genericTreatment : List String :=
  ["Remove affected plant parts", "Apply appropriate fungicide or pesticide",
   "Improve air circulation around plants", "Ensure proper watering schedule"]

/-- The fixed 4-element prevention list of the generic placeholder record
(main.py lines 149-154). -/
def genericPrevention : List String :=
  ["Use disease-resistant varieties", "Practice crop rotation",
   "Maintain proper plant spacing", "Monitor plants regularly for early detection"]

/-- The generic placeholder record substituted when the lookup key is
absent from DISEASE_INFO (main.py lines 134-155). -/
def genericInfo (diseaseName : String) : InfoDict :=
  ⟨some diseaseName, some "Medium", some genericSymptoms,
   some genericTreatment, some genericPrevention⟩

/-- The JSON prediction result built at main.py lines 158-165. -/
structure PredictionResult where
  disease : String
  confidence : ℚ
  severity : String
  symptoms : List String
  treatment : List String
  prevention : List String
deriving DecidableEq

/-- A response body: empty (preflight), an error JSON, a prediction JSON,
or the health JSON. -/
inductive RespBody where
  | empty
  | errorJson (msg : String)
  | predJson (r : PredictionResult)
  | healthJson (status : String) (modelLoaded : Bool)
deriving DecidableEq

/-- An HTTP response as returned by the Flask handlers: body, status code
and the headers explicitly set by the handler. -/
structure HttpResponse where
  body : RespBody
  status : Nat
  headers : List (String × String)
deriving DecidableEq

/-- Headers of the CORS preflight response (main.py lines 96-101). -/
def corsPreflightHeaders : List (String × String) :=
  [("Access-Control-Allow-Origin", "*"), ("Access-Control-Allow-Methods", "POST"),
   ("Access-Control-Allow-Headers", "Content-Type"), ("Access-Control-Max-Age", "3600")]

/-- The header dict set on every non-preflight /predict response
(main.py line 104). -/
def corsOriginHeaders : List (String × String) :=
  [("Access-Control-Allow-Origin", "*")]

/-! ### The /predict handler -/

/-- Per-request environment of the handler: the module-level state (model,
class names, disease table) together with the outcomes of the fallible or
random library calls made for this request. -/
structure PredictEnv (M : Type) where
  model : Option M
  classNames : List String
  diseaseInfo : String → Option InfoDict
  decodeImage : PyJson → Except String Unit
  modelOut : Except String (List ℚ)
  randIdx : Nat
  randU : ℚ

/-- Clean-up of the predicted class name into a display name
(main.py line 130): replace three underscores by a spaced dash, then each
underscore by a space. -/
def diseaseNameOf (dc : String) : String :=
  (pyReplace (pyReplace dc.toList ['_','_','_'] [' ','-',' ']) ['_'] [' ']).asString

/-- Lookup key derivation (main.py line 133): the second split segment
when the class name contains three consecutive underscores, else the whole
class name. -/
def diseaseKeyOf (dc : String) : String :=
  if ['_','_','_'] <:+: dc.toList
  then ((pySplitOn dc.toList ['_','_','_']).getD 1 []).asString
  else dc

/-- Selection of the predicted class and raw confidence (main.py lines
115-127): model branch (predict, argmax, bounds-checked class name) or
no-model fallback (random choice and random uniform confidence). -/
def chooseDisease {M : Type} (env : PredictEnv M) : Except String (String × ℚ) :=
  match env.model with
  | some _ =>
    match env.modelOut with
    | .error e => .error e
    | .ok preds =>
      match npArgmax preds with
      | .error e => .error e
      | .ok idx =>
        .ok (if idx < env.classNames.length
             then env.classNames.getD idx ""
             else "Unknown",
             preds.getD idx 0)
  | none =>
    match randomChoice env.classNames env.randIdx with
    | .error e => .error e
    | .ok dc => .ok (dc, randomUniform 0.75 0.95 env.randU)

/-- Assembly of the 200 response body (main.py lines 129-165): display
name, lookup key, DISEASE_INFO lookup with the generic default, and the
result dict with per-field defaults. -/
def buildResult (dc : String) (conf : ℚ) (info : String → Option InfoDict) :
    PredictionResult :=
  let dn := diseaseNameOf dc
  let d := (info (diseaseKeyOf dc)).getD (genericInfo dn)
  { disease := d.name.getD dn
    confidence := pyRound2 (conf * 100)
    severity := d.severity.getD "Medium"
    symptoms := d.symptoms.getD []
    treatment := d.treatment.getD []
    prevention := d.prevention.getD [] }

/-- Outcome of the try block body: the early 400 return or a success. -/
inductive Handled where
  | badRequest
  | success (r : PredictionResult)

/-- The try block of predict_disease (main.py lines 106-167): body check,
membership check, subscript, preprocess_image, prediction, response
assembly; any raised exception propagates as the Except error. -/
def predictTry {M : Type} (env : PredictEnv M) (reqJson : Option PyJson) :
    Except String Handled :=
  match reqJson with
  | none => .ok .badRequest
  | some j =>
    if !j.truthy then .ok .badRequest
    else
      match pyContainsKey j "image" with
      | .error e => .error e
      | .ok false => .ok .badRequest
      | .ok true =>
        match pySubscript j "image" with
        | .error e => .error e
        | .ok imgVal =>
          match env.decodeImage imgVal with
          | .error e => .error e
          | .ok _ =>
            match chooseDisease env with
            | .error e => .error e
            | .ok (dc, conf) => .ok (.success (buildResult dc conf env.diseaseInfo))

/-- The methods routed to predict_disease (main.py line 91). -/
inductive PredictMethod where
  | POST
  | OPTIONS

/-- The predict_disease handler (main.py lines 91-171): preflight short
circuit, then the try block mapped to 400 / 200 / 500 responses, each
carrying the CORS origin header. -/
def predict_disease {M : Type} (env : PredictEnv M) (method : PredictMethod)
    (reqJson : Option PyJson) : HttpResponse :=
  match method with
  | .OPTIONS => ⟨.empty, 204, corsPreflightHeaders⟩
  | .POST =>
    match predictTry env reqJson with
    | .ok .badRequest => ⟨.errorJson "No image provided", 400, corsOriginHeaders⟩
    | .ok (.success r) => ⟨.predJson r, 200, corsOriginHeaders⟩
    | .error e => ⟨.errorJson e, 500, corsOriginHeaders⟩

/-- The health_check handler (main.py lines 83-89): 200 with the health
JSON and no handler-set headers. -/
def health_check (modelLoaded : Bool) : HttpResponse :=
  ⟨.healthJson "healthy" modelLoaded, 200, []⟩

/-! ### Module-level bootstrap (serving cold start, main.py lines 27-60) -/

/-- Outcomes of the three fallible cold-start steps: the blob download
loop (lines 36-41), tf.keras.models.load_model (line 45) and the
class_names.json fetch (lines 54-55). -/
structure BootstrapEnv (M : Type) where
  downloadModelFiles : Except String Unit
  loadModel : Except String M
  fetchClassNames : Except String (List String)

/-- The hard-coded fallback class-name list (main.py lines 57-60). -/
def fallbackClassNames : List String :=
  ["Tomato___Late_blight", "Corn___Common_rust", "Potato___Early_blight",
   "Apple___Apple_scab", "Grape___Black_rot"]

/-- The module-level state after a successful import. -/
structure ServerState (M : Type) where
  model : Option M
  classNames : List String

/-- The module-level bootstrap: the download loop runs outside any
try/except, so its failure propagates; load_model failure is caught and
leaves model = None; the class-name fetch failure is caught and
substitutes the fallback list. -/
def bootstrap {M : Type} (env : BootstrapEnv M) : Except String (ServerState M) :=
  match env.downloadModelFiles with
  | .error e => .error e
  | .ok _ =>
    .ok { model := match env.loadModel with
            | .ok m => some m
            | .error _ => none
          classNames := match env.fetchClassNames with
            | .ok l => l
            | .error _ => fallbackClassNames }

/-! ### Dataset preparation (src/ml/prepare_dataset.py) -/

/-- Bucket name constant of prepare_dataset.py (line 12). -/
def BUCKET_NAME : String := "kenya-agri-farmwise-ml"

/-- Storage key root of prepare_dataset.py (line 14). -/
def GCS_PREFIX : String := "datasets/plantvillage"

/-- The extensions accepted by the upload loop (line 69): lowercase and
uppercase jpg, jpeg, png. -/
def uploadExts : List (List Char) :=
  [".jpg".toList, ".jpeg".toList, ".png".toList,
   ".JPG".toList, ".JPEG".toList, ".PNG".toList]

/-- The extensions accepted when building the manifest CSV (line 118):
lowercase jpg, jpeg, png only. -/
def csvExts : List (List Char) :=
  [".jpg".toList, ".jpeg".toList, ".png".toList]

/-- Object key for one file (line 74): prefix, split name and the path of
the file relative to the split directory, with backslashes normalized to
slashes. -/
def gcsKeyFor (split relPath : String) : String :=
  ((GCS_PREFIX ++ "/" ++ split ++ "/" ++ relPath).toList.map
    (fun c => if c = '\\' then '/' else c)).asString

/-- The upload loop of upload_to_gcs for one split (lines 62-85): every
walked file with an accepted image extension is uploaded under its
deterministic key; the per-split file count is the length of this list. -/
def uploadSplitKeys (split : String) (files : List String) : List String :=
  (files.filter (fun f => pyEndsWithAny f.toList uploadExts)).map (gcsKeyFor split)

/-- The prefix passed to list_blobs in create_dataset_csv (line 114). -/
def csvListPrefixStr : String := GCS_PREFIX ++ "/train/"

/-- One manifest row candidate (lines 117-125): kept only when the split
of the key on slashes has at least 4 parts; the row pairs the object URI
with the second-to-last path segment. -/
def csvRowOf (k : String) : Option String :=
  let parts := pySplitOn k.toList ['/']
  if parts.length ≥ 4
  then some ("gs://" ++ BUCKET_NAME ++ "/" ++ k ++ "," ++
             (parts.getD (parts.length - 2) []).asString)
  else none

/-- create_dataset_csv (lines 104-133) over the bucket keys: list the
blobs under the train prefix, keep those ending in a lowercase image
extension, and build one row per kept blob. -/
def csvLines (bucketKeys : List String) : List String :=
  ((bucketKeys.filter
      (fun k => csvListPrefixStr.toList.isPrefixOf k.toList)).filter
      (fun k => pyEndsWithAny k.toList csvExts)).filterMap csvRowOf

/-! ### Training epoch split (src/ml/train_model.py) -/

/-- The two model.fit epoch counts of train_model (lines 233 and 255):
each phase runs args.epochs // 2 epochs, with Python floor division. -/
def trainPhaseEpochs (epochs : ℤ) : ℤ × ℤ :=
  (Int.fdiv epochs 2, Int.fdiv epochs 2)

/-! ### Concrete environments used to evaluate the handlers -/

/-- A request environment in degraded no-model mode. -/
def envNoModel : PredictEnv Unit :=
  ⟨none, fallbackClassNames, fun _ => none, fun _ => .ok (), .ok [], 0, 1/2⟩

/-- A request environment with a loaded model whose output vector is the
output vector with maximum at index 1. -/
def envLoaded : PredictEnv Unit :=
  ⟨some (), fallbackClassNames, fun _ => none, fun _ => .ok (),
   .ok [0, 1, 0, 0, 0], 0, 0⟩

/-- A request environment with a loaded model whose arg-max index (1)
overflows the single-element class-name list. -/
def envLoadedOverflow : PredictEnv Unit :=
  ⟨some (), ["Potato___Early_blight"], fun _ => none, fun _ => .ok (),
   .ok [0, 1], 0, 0⟩

/-- A well-formed request body carrying an image field. -/
def reqWithImage : Option PyJson :=
  some (.obj [("image", .str "aGVsbG8=")])

/-! ### Helper lemmas -/

theorem toList_ne_nil_of_ne_empty (s : String) (h : s ≠ "") : s.toList ≠ [] := by
  intro he
  apply h
  have hd : s.data = [] := he
  cases s with
  | mk data =>
    simp only at hd
    subst hd
    rfl

theorem asString_ne_empty_of_ne_nil (l : List Char) (h : l ≠ []) :
    l.asString ≠ "" := by
  intro he
  exact h (congrArg String.data he)

theorem pyReplaceAux_ne_nil (sep repl : List Char) (hr : repl ≠ []) :
    ∀ (fuel : Nat) (s : List Char), s ≠ [] → fuel ≠ 0 →
      pyReplaceAux sep repl fuel s ≠ [] := by
  intro fuel s hs hf
  match fuel, s with
  | _, [] => exact absurd rfl hs
  | 0, _ :: _ => exact absurd rfl hf
  | f+1, c :: rest =>
    simp only [pyReplaceAux]
    split
    · simp [hr]
    · simp

theorem pyReplace_ne_nil (s sep repl : List Char) (hr : repl ≠ []) (hs : s ≠ []) :
    pyReplace s sep repl ≠ [] := by
  apply pyReplaceAux_ne_nil sep repl hr s.length s hs
  simpa using hs

theorem diseaseNameOf_ne_empty (dc : String) (h : dc ≠ "") :
    diseaseNameOf dc ≠ "" := by
  apply asString_ne_empty_of_ne_nil
  apply pyReplace_ne_nil _ _ _ (by simp)
  apply pyReplace_ne_nil _ _ _ (by simp)
  exact toList_ne_nil_of_ne_empty dc h

theorem argmaxAux_lt :
    ∀ (xs : List ℚ) (bv : ℚ) (i best : Nat), best < i →
      argmaxAux xs bv i best < i + xs.length := by
  intro xs
  induction xs with
  | nil => intro bv i best h; simpa using h
  | cons x xs ih =>
    intro bv i best h
    simp only [argmaxAux]
    split
    · have := ih x (i+1) i (by omega)
      simpa [Nat.add_comm, Nat.add_left_comm] using this.trans_le (by omega)
    · have := ih bv (i+1) best (by omega)
      simpa [Nat.add_comm, Nat.add_left_comm] using this.trans_le (by omega)

theorem npArgmax_lt (l : List ℚ) (idx : Nat) (h : npArgmax l = .ok idx) :
    idx < l.length := by
  match l with
  | [] => simp [npArgmax] at h
  | x :: xs =>
    simp only [npArgmax, Except.ok.injEq] at h
    subst h
    have := argmaxAux_lt xs x 1 0 (by omega)
    simpa [Nat.add_comm] using this

theorem getD_mem_of_lt {α : Type} (l : List α) (i : Nat) (d : α)
    (h : i < l.length) : l.getD i d ∈ l := by
  rw [List.getD_eq_getElem l d h]
  exact List.getElem_mem h

theorem randomChoice_mem (l : List String) (i : Nat) (s : String)
    (h : randomChoice l i = .ok s) : s ∈ l := by
  match l with
  | [] => simp [randomChoice] at h
  | x :: xs =>
    simp only [randomChoice, Except.ok.injEq] at h
    subst h
    exact getD_mem_of_lt _ _ _ (Nat.mod_lt _ (by simp))

theorem randomUniform_bounds (u : ℚ) (h0 : 0 ≤ u) (h1 : u ≤ 1) :
    0.75 ≤ randomUniform 0.75 0.95 u ∧ randomUniform 0.75 0.95 u ≤ 0.95 := by
  unfold randomUniform
  norm_num
  constructor <;> nlinarith

theorem roundHalfEven_ge (q : ℚ) (n : ℤ) (h : (n : ℚ) ≤ q) :
    n ≤ roundHalfEven q := by
  have hf : n ≤ ⌊q⌋ := Int.le_floor.mpr h
  unfold roundHalfEven
  split_ifs <;> omega

theorem roundHalfEven_le (q : ℚ) (m : ℤ) (h : q ≤ (m : ℚ)) :
    roundHalfEven q ≤ m := by
  have hfl : ⌊q⌋ ≤ m := by
    have := Int.floor_le_floor h
    simpa using this
  have hq : (⌊q⌋ : ℚ) ≤ q := Int.floor_le q
  unfold roundHalfEven
  split_ifs with h1 h2 h3
  · exact hfl
  · have hlt : (⌊q⌋ : ℚ) < q := by linarith
    have : ⌊q⌋ < m := by exact_mod_cast hlt.trans_le h
    omega
  · exact hfl
  · have hlt : (⌊q⌋ : ℚ) < q := by
      have : q - ⌊q⌋ = 1/2 := le_antisymm (not_lt.mp h2) (not_lt.mp h1)
      linarith
    have : ⌊q⌋ < m := by exact_mod_cast hlt.trans_le h
    omega

theorem predictTry_obj_found {M : Type} (env : PredictEnv M)
    (fs : List (String × PyJson)) (v : String × PyJson)
    (hf : fs.find? (fun p => p.1 == "image") = some v) :
    predictTry env (some (.obj fs)) =
      match env.decodeImage v.2 with
      | .error e => .error e
      | .ok _ =>
        match chooseDisease env with
        | .error e => .error e
        | .ok (dc, conf) => .ok (.success (buildResult dc conf env.diseaseInfo)) := by
  have hpred := List.find?_some hf
  have hmem := List.mem_of_find?_eq_some hf
  have hany : fs.any (fun p => p.1 == "image") = true :=
    List.any_eq_true.mpr ⟨v, hmem, hpred⟩
  cases fs with
  | nil => simp at hf
  | cons p ps =>
    simp [predictTry, PyJson.truthy, pyContainsKey, pySubscript, hany, hf]

theorem predictTry_obj_noKey {M : Type} (env : PredictEnv M)
    (fs : List (String × PyJson))
    (hf : fs.find? (fun p => p.1 == "image") = none) :
    predictTry env (some (.obj fs)) = .ok .badRequest := by
  cases fs with
  | nil => simp [predictTry, PyJson.truthy]
  | cons p ps =>
    have hany : (p :: ps).any (fun q => q.1 == "image") = false :=
      List.any_eq_false.mpr (by
        intro x hx
        exact List.find?_eq_none.mp hf x hx)
    simp [predictTry, PyJson.truthy, pyContainsKey, hany]

theorem chooseDisease_model {M : Type} (env : PredictEnv M) (m : M)
    (preds : List ℚ) (idx : Nat)
    (hm : env.model = some m) (ho : env.modelOut = .ok preds)
    (ha : npArgmax preds = .ok idx) :
    chooseDisease env = .ok
      (if idx < env.classNames.length then env.classNames.getD idx "" else "Unknown",
       preds.getD idx 0) := by
  simp [chooseDisease, hm, ho, ha]

theorem chooseDisease_noModel {M : Type} (env : PredictEnv M)
    (x : String) (xs : List String)
    (hm : env.model = none) (hc : env.classNames = x :: xs) :
    chooseDisease env =
      .ok ((x :: xs).getD (env.randIdx % (x :: xs).length) x,
           randomUniform 0.75 0.95 env.randU) := by
  simp [chooseDisease, hm, hc, randomChoice]

theorem pyRound2_mem (q : ℚ) (a b : ℤ) (ha : (a : ℚ) ≤ q) (hb : q ≤ (b : ℚ)) :
    (a : ℚ) ≤ pyRound2 q ∧ pyRound2 q ≤ (b : ℚ) := by
  have h1 : (a * 100 : ℤ) ≤ roundHalfEven (q * 100) := by
    apply roundHalfEven_ge
    push_cast
    nlinarith
  have h2 : roundHalfEven (q * 100) ≤ (b * 100 : ℤ) := by
    apply roundHalfEven_le
    push_cast
    nlinarith
  unfold pyRound2
  constructor
  · rw [le_div_iff₀ (by norm_num)]
    have : ((a * 100 : ℤ) : ℚ) ≤ (roundHalfEven (q * 100) : ℚ) := by exact_mod_cast h1
    push_cast at this
    linarith
  · rw [div_le_iff₀ (by norm_num)]
    have : ((roundHalfEven (q * 100) : ℤ) : ℚ) ≤ ((b * 100 : ℤ) : ℚ) := by
      exact_mod_cast h2
    push_cast at this
    linarith

theorem predict_generic_of_absent {M : Type} (env : PredictEnv M)
    (fs : List (String × PyJson)) (v : String × PyJson) (dc : String) (conf : ℚ)
    (hf : fs.find? (fun p => p.1 == "image") = some v)
    (hdec : env.decodeImage v.2 = .ok ())
    (hch : chooseDisease env = .ok (dc, conf))
    (habs : env.diseaseInfo (diseaseKeyOf dc) = none) :
    predict_disease env .POST (some (.obj fs)) =
      ⟨.predJson
        { disease := diseaseNameOf dc
          confidence := pyRound2 (conf * 100)
          severity := "Medium"
          symptoms := genericSymptoms
          treatment := genericTreatment
          prevention := genericPrevention },
       200, corsOriginHeaders⟩ := by
  have ht := predictTry_obj_found env fs v hf
  simp only [predict_disease, ht, hdec, hch]
  simp [buildResult, habs, genericInfo]

/-- C4: for every predicted class label whose lookup key is absent from
the disease-info table, the /predict response is built from the generic
placeholder record: severity Medium, the fixed 4-element symptoms,
treatment and prevention lists, and the display name derived from the
predicted class name. -/
theorem c4_generic_fallback {M : Type} (env : PredictEnv M)
    (fs : List (String × PyJson)) (v : String × PyJson) (dc : String) (conf : ℚ)
    (hf : fs.find? (fun p => p.1 == "image") = some v)
    (hdec : env.decodeImage v.2 = .ok ())
    (hch : chooseDisease env = .ok (dc, conf))
    (habs : env.diseaseInfo (diseaseKeyOf dc) = none) :
    predict_disease env .POST (some (.obj fs)) =
      ⟨.predJson
        { disease := diseaseNameOf dc
          confidence := pyRound2 (conf * 100)
          severity := "Medium"
          symptoms := genericSymptoms
          treatment := genericTreatment
          prevention := genericPrevention },
       200, corsOriginHeaders⟩ ∧
    genericSymptoms.length = 4 ∧ genericTreatment.length = 4 ∧
    genericPrevention.length = 4 :=
  ⟨predict_generic_of_absent env fs v dc conf hf hdec hch habs,
   rfl, rfl, rfl⟩

/-- C4 witness: the no-model environment, a request carrying an image
field, and a class whose key is absent from the (empty) table. -/
theorem c4_witness :
    ([("image", PyJson.str "aGVsbG8=")].find?
        (fun p => p.1 == "image") = some ("image", PyJson.str "aGVsbG8=")) ∧
    (envNoModel.decodeImage (PyJson.str "aGVsbG8=") = .ok ()) ∧
    (chooseDisease envNoModel = .ok ("Tomato___Late_blight",
        randomUniform 0.75 0.95 (1/2))) ∧
    (envNoModel.diseaseInfo (diseaseKeyOf "Tomato___Late_blight") = none) ∧
    (predict_disease envNoModel .POST
        (some (.obj [("image", PyJson.str "aGVsbG8=")]))).status = 200 := by
  refine ⟨rfl, rfl, rfl, rfl, ?_⟩
  rw [(c4_generic_fallback envNoModel [("image", PyJson.str "aGVsbG8=")]
        ("image", PyJson.str "aGVsbG8=") "Tomato___Late_blight"
        (randomUniform 0.75 0.95 (1/2)) rfl rfl rfl rfl).1]

/-- C9: when a model is loaded and the arg-max index is at least the
length of the class-name list, the handler does not raise: it substitutes
the class name Unknown, which resolves to the generic placeholder record,
and still returns 200. -/
theorem c9_argmax_out_of_range {M : Type} (env : PredictEnv M) (m : M)
    (fs : List (String × PyJson)) (v : String × PyJson)
    (preds : List ℚ) (idx : Nat)
    (hf : fs.find? (fun p => p.1 == "image") = some v)
    (hdec : env.decodeImage v.2 = .ok ())
    (hm : env.model = some m)
    (ho : env.modelOut = .ok preds)
    (ha : npArgmax preds = .ok idx)
    (hge : env.classNames.length ≤ idx)
    (habs : env.diseaseInfo "Unknown" = none) :
    predict_disease env .POST (some (.obj fs)) =
      ⟨.predJson
        { disease := "Unknown"
          confidence := pyRound2 (preds.getD idx 0 * 100)
          severity := "Medium"
          symptoms := genericSymptoms
          treatment := genericTreatment
          prevention := genericPrevention },
       200, corsOriginHeaders⟩ := by
  have hch := chooseDisease_model env m preds idx hm ho ha
  rw [if_neg (by omega)] at hch
  have hkey : diseaseKeyOf "Unknown" = "Unknown" := by decide
  have hname : diseaseNameOf "Unknown" = "Unknown" := by decide
  have := predict_generic_of_absent env fs v "Unknown" (preds.getD idx 0)
    hf hdec hch (by rw [hkey]; exact habs)
  rw [this, hname]

/-- C9 witness: a loaded model whose output has its arg-max at index 1
against a single-element class-name list. -/
theorem c9_witness :
    (envLoadedOverflow.model = some ()) ∧
    (envLoadedOverflow.modelOut = .ok [0, 1]) ∧
    (npArgmax [0, 1] = .ok 1) ∧
    (envLoadedOverflow.classNames.length ≤ 1) ∧
    (envLoadedOverflow.diseaseInfo "Unknown" = none) ∧
    (predict_disease envLoadedOverflow .POST
        (some (.obj [("image", PyJson.str "aGVsbG8=")]))).status = 200 := by
  refine ⟨rfl, rfl, by decide, by decide, rfl, ?_⟩
  rw [c9_argmax_out_of_range envLoadedOverflow ()
    [("image", PyJson.str "aGVsbG8=")] ("image", PyJson.str "aGVsbG8=")
    [0, 1] 1 rfl rfl rfl rfl (by decide) (by decide) rfl]

/-- C8: the training script runs exactly epochs // 2 epochs in the frozen
phase and epochs // 2 in the fine-tuning phase, a total of
2 * (epochs // 2), which is epochs - 1 whenever epochs is odd. -/
theorem c8_epoch_split (epochs : ℤ) :
    trainPhaseEpochs epochs = (Int.fdiv epochs 2, Int.fdiv epochs 2) ∧
    (trainPhaseEpochs epochs).1 + (trainPhaseEpochs epochs).2 =
      2 * Int.fdiv epochs 2 ∧
    (Odd epochs →
      (trainPhaseEpochs epochs).1 + (trainPhaseEpochs epochs).2 = epochs - 1) := by
  refine ⟨rfl, by simp [trainPhaseEpochs]; ring, ?_⟩
  intro hodd
  simp only [trainPhaseEpochs]
  rw [Int.fdiv_eq_ediv _ (by norm_num)]
  obtain ⟨k, hk⟩ := hodd
  subst hk
  omega

/-- C8 witness: with 5 requested epochs the two phases run 2 + 2 = 4
epochs, one less than requested. -/
theorem c8_witness :
    Odd (5 : ℤ) ∧
    (trainPhaseEpochs 5).1 + (trainPhaseEpochs 5).2 = 5 - 1 :=
  ⟨⟨2, by norm_num⟩, (c8_epoch_split 5).2.2 ⟨2, by norm_num⟩⟩

/-- C10: the care-record lookup key is the split segment after the first
triple underscore when the class name contains one, so any two class
names sharing that segment resolve to the same record; class names
without a triple underscore are used whole. -/
theorem c10_lookup_key (dc1 dc2 : String) (info : String → Option InfoDict)
    (h1 : ['_','_','_'] <:+: dc1.toList)
    (h2 : ['_','_','_'] <:+: dc2.toList)
    (hseg : (pySplitOn dc1.toList ['_','_','_']).getD 1 [] =
            (pySplitOn dc2.toList ['_','_','_']).getD 1 []) :
    diseaseKeyOf dc1 = ((pySplitOn dc1.toList ['_','_','_']).getD 1 []).asString ∧
    diseaseKeyOf dc1 = diseaseKeyOf dc2 ∧
    info (diseaseKeyOf dc1) = info (diseaseKeyOf dc2) ∧
    (∀ dc : String, ¬ ['_','_','_'] <:+: dc.toList → diseaseKeyOf dc = dc) := by
  have e1 : diseaseKeyOf dc1 =
      ((pySplitOn dc1.toList ['_','_','_']).getD 1 []).asString := by
    unfold diseaseKeyOf
    rw [if_pos h1]
  have e2 : diseaseKeyOf dc2 =
      ((pySplitOn dc2.toList ['_','_','_']).getD 1 []).asString := by
    unfold diseaseKeyOf
    rw [if_pos h2]
  have e12 : diseaseKeyOf dc1 = diseaseKeyOf dc2 := by
    rw [e1, e2, hseg]
  exact ⟨e1, e12, by rw [e12], fun dc hdc => by unfold diseaseKeyOf; rw [if_neg hdc]⟩

/-- C10 witness: two class names for different crops with the same disease
segment share the lookup key Late underscore blight. -/
theorem c10_witness :
    (['_','_','_'] <:+: "Tomato___Late_blight".toList) ∧
    (['_','_','_'] <:+: "Potato___Late_blight".toList) ∧
    ((pySplitOn "Tomato___Late_blight".toList ['_','_','_']).getD 1 [] =
     (pySplitOn "Potato___Late_blight".toList ['_','_','_']).getD 1 []) ∧
    diseaseKeyOf "Tomato___Late_blight" = diseaseKeyOf "Potato___Late_blight" ∧
    diseaseKeyOf "Tomato___Late_blight" = "Late_blight" :=
  ⟨by decide, by decide, by decide,
   (c10_lookup_key "Tomato___Late_blight" "Potato___Late_blight"
      (fun _ => none) (by decide) (by decide) (by decide)).2.1,
   by decide⟩

/-- C3: with a valid image and no model loaded, the chosen label is an
element of the class-name list, the raw confidence lies in [0.75, 0.95],
and the reported percentage lies in [75, 95]. -/
theorem c3_no_model_fallback {M : Type} (env : PredictEnv M)
    (fs : List (String × PyJson)) (v : String × PyJson)
    (x : String) (xs : List String)
    (hf : fs.find? (fun p => p.1 == "image") = some v)
    (hdec : env.decodeImage v.2 = .ok ())
    (hm : env.model = none)
    (hc : env.classNames = x :: xs)
    (hu0 : 0 ≤ env.randU) (hu1 : env.randU ≤ 1) :
    ∃ dc conf,
      chooseDisease env = .ok (dc, conf) ∧ dc ∈ env.classNames ∧
      0.75 ≤ conf ∧ conf ≤ 0.95 ∧
      ∃ r, predict_disease env .POST (some (.obj fs)) =
             ⟨.predJson r, 200, corsOriginHeaders⟩ ∧
           75 ≤ r.confidence ∧ r.confidence ≤ 95 := by
  have hch := chooseDisease_noModel env x xs hm hc
  have hmem : (x :: xs).getD (env.randIdx % (x :: xs).length) x ∈ env.classNames := by
    rw [hc]
    exact randomChoice_mem (x :: xs) env.randIdx _ rfl
  obtain ⟨hb0, hb1⟩ := randomUniform_bounds env.randU hu0 hu1
  refine ⟨(x :: xs).getD (env.randIdx % (x :: xs).length) x,
          randomUniform 0.75 0.95 env.randU, hch, hmem, hb0, hb1,
          buildResult ((x :: xs).getD (env.randIdx % (x :: xs).length) x)
            (randomUniform 0.75 0.95 env.randU) env.diseaseInfo, ?_, ?_, ?_⟩
  · have ht := predictTry_obj_found env fs v hf
    simp only [predict_disease, ht, hdec, hch]
  · have := (pyRound2_mem (randomUniform 0.75 0.95 env.randU * 100) 75 95
      (by push_cast; nlinarith) (by push_cast; nlinarith)).1
    simpa [buildResult] using this
  · have := (pyRound2_mem (randomUniform 0.75 0.95 env.randU * 100) 75 95
      (by push_cast; nlinarith) (by push_cast; nlinarith)).2
    simpa [buildResult] using this

/-- C3 witness: the no-model environment with random draw one half. -/
theorem c3_witness :
    ([("image", PyJson.str "aGVsbG8=")].find?
        (fun p => p.1 == "image") = some ("image", PyJson.str "aGVsbG8=")) ∧
    (envNoModel.model = none) ∧
    (envNoModel.classNames = "Tomato___Late_blight" ::
        ["Corn___Common_rust", "Potato___Early_blight",
         "Apple___Apple_scab", "Grape___Black_rot"]) ∧
    (0 ≤ envNoModel.randU) ∧ (envNoModel.randU ≤ 1) ∧
    (∃ dc conf,
      chooseDisease envNoModel = .ok (dc, conf) ∧ dc ∈ envNoModel.classNames ∧
      0.75 ≤ conf ∧ conf ≤ 0.95 ∧
      ∃ r, predict_disease envNoModel .POST
             (some (.obj [("image", PyJson.str "aGVsbG8=")])) =
             ⟨.predJson r, 200, corsOriginHeaders⟩ ∧
           75 ≤ r.confidence ∧ r.confidence ≤ 95) :=
  ⟨rfl, rfl, rfl, by norm_num [envNoModel], by norm_num [envNoModel],
   c3_no_model_fallback envNoModel [("image", PyJson.str "aGVsbG8=")]
     ("image", PyJson.str "aGVsbG8=") "Tomato___Late_blight"
     ["Corn___Common_rust", "Potato___Early_blight",
      "Apple___Apple_scab", "Grape___Black_rot"]
     rfl rfl rfl rfl (by norm_num [envNoModel]) (by norm_num [envNoModel])⟩

/-- C2: for a request whose image field decodes successfully, the response
is 200 and its confidence lies in [0, 100] and its disease name is a
non-empty string, in both the model-loaded branch (confidence is the
rounded percentage of the arg-max entry of an output vector with entries
in [0, 1]) and the no-model fallback branch. -/
theorem c2_valid_image_response {M : Type} (env : PredictEnv M)
    (fs : List (String × PyJson)) (v : String × PyJson)
    (hf : fs.find? (fun p => p.1 == "image") = some v)
    (hdec : env.decodeImage v.2 = .ok ())
    (hnames : ∀ c ∈ env.classNames, c ≠ "")
    (htable : ∀ k d s, env.diseaseInfo k = some d → d.name = some s → s ≠ "")
    (hmodel : ∀ m, env.model = some m → ∃ preds, env.modelOut = .ok preds ∧
        preds ≠ [] ∧ ∀ q ∈ preds, 0 ≤ q ∧ q ≤ 1)
    (hcn : env.classNames ≠ [])
    (hu0 : 0 ≤ env.randU) (hu1 : env.randU ≤ 1) :
    ∃ r, predict_disease env .POST (some (.obj fs)) =
           ⟨.predJson r, 200, corsOriginHeaders⟩ ∧
         0 ≤ r.confidence ∧ r.confidence ≤ 100 ∧ r.disease ≠ "" := by
  obtain ⟨dc, conf, hch, hdcne, hc0, hc1⟩ :
      ∃ dc conf, chooseDisease env = .ok (dc, conf) ∧ dc ≠ "" ∧
        0 ≤ conf ∧ conf ≤ 1 := by
    cases hmEq : env.model with
    | some m =>
      obtain ⟨preds, ho, hne, hbounds⟩ := hmodel m hmEq
      obtain ⟨p, ps, rfl⟩ : ∃ p ps, preds = p :: ps := by
        cases preds with
        | nil => exact absurd rfl hne
        | cons p ps => exact ⟨p, ps, rfl⟩
      have ha : npArgmax (p :: ps) = .ok (argmaxAux ps p 1 0) := rfl
      have hlt := npArgmax_lt _ _ ha
      have hch := chooseDisease_model env m _ _ hmEq ho ha
      refine ⟨_, _, hch, ?_, (hbounds _ (getD_mem_of_lt _ _ _ hlt)).1,
              (hbounds _ (getD_mem_of_lt _ _ _ hlt)).2⟩
      by_cases hidxlt : argmaxAux ps p 1 0 < env.classNames.length
      · rw [if_pos hidxlt]
        exact hnames _ (getD_mem_of_lt _ _ _ hidxlt)
      · rw [if_neg hidxlt]
        simp
    | none =>
      obtain ⟨x, xs, hcEq⟩ : ∃ x xs, env.classNames = x :: xs := by
        cases hcc : env.classNames with
        | nil => exact absurd hcc hcn
        | cons x xs => exact ⟨x, xs, rfl⟩
      have hch := chooseDisease_noModel env x xs hmEq hcEq
      have hmem : (x :: xs).getD (env.randIdx % (x :: xs).length) x ∈
          env.classNames := by
        rw [hcEq]
        exact randomChoice_mem (x :: xs) env.randIdx _ rfl
      obtain ⟨hb0, hb1⟩ := randomUniform_bounds env.randU hu0 hu1
      exact ⟨_, _, hch, hnames _ hmem, by linarith, by linarith⟩
  have ht := predictTry_obj_found env fs v hf
  have hdn := diseaseNameOf_ne_empty dc hdcne
  refine ⟨buildResult dc conf env.diseaseInfo, ?_, ?_, ?_, ?_⟩
  · simp only [predict_disease, ht, hdec, hch]
  · have := (pyRound2_mem (conf * 100) 0 100 (by push_cast; nlinarith)
      (by push_cast; nlinarith)).1
    simpa [buildResult] using this
  · have := (pyRound2_mem (conf * 100) 0 100 (by push_cast; nlinarith)
      (by push_cast; nlinarith)).2
    simpa [buildResult] using this
  · simp only [buildResult]
    cases hinfo : env.diseaseInfo (diseaseKeyOf dc) with
    | none => simpa [hinfo, genericInfo] using hdn
    | some d0 =>
      cases hn : d0.name with
      | none => simpa [hinfo, hn] using hdn
      | some s => simpa [hinfo, hn] using htable _ d0 s hinfo hn

/-- C2 witness: the loaded-model environment with output vector maximal at
index 1 and an all-absent disease table. -/
theorem c2_witness :
    ([("image", PyJson.str "aGVsbG8=")].find? (fun p => p.1 == "image") =
        some ("image", PyJson.str "aGVsbG8=")) ∧
    (envLoaded.decodeImage (PyJson.str "aGVsbG8=") = .ok ()) ∧
    (∀ c ∈ envLoaded.classNames, c ≠ "") ∧
    (envLoaded.classNames ≠ []) ∧
    (∃ r, predict_disease envLoaded .POST
            (some (.obj [("image", PyJson.str "aGVsbG8=")])) =
            ⟨.predJson r, 200, corsOriginHeaders⟩ ∧
          0 ≤ r.confidence ∧ r.confidence ≤ 100 ∧ r.disease ≠ "") :=
  ⟨rfl, rfl, by decide, by decide,
   c2_valid_image_response envLoaded [("image", PyJson.str "aGVsbG8=")]
     ("image", PyJson.str "aGVsbG8=") rfl rfl (by decide)
     (fun _ _ _ h _ => Option.noConfusion h)
     (fun _ _ => ⟨[0, 1, 0, 0, 0], rfl, by decide, by decide⟩)
     (by decide) (by norm_num [envLoaded]) (by norm_num [envLoaded])⟩

/-- C5 counterexample: a failure of the model-file download loop, which
runs outside any try/except, propagates and makes startup fail, refuting
the claim that every cold-start failure leaves the server running. -/
theorem c5_counterexample :
    bootstrap (M := Unit)
      ⟨.error "download failed", .ok (), .ok fallbackClassNames⟩ =
      .error "download failed" := rfl

/-- C5 (amended): when the download loop succeeds, startup never fails: a
load-model failure degrades to no-model mode, a class-name fetch failure
substitutes the fixed 5-element fallback list, and successes are kept. -/
theorem c5_bootstrap_amended {M : Type} (env : BootstrapEnv M)
    (h : env.downloadModelFiles = .ok ()) :
    ∃ st, bootstrap env = .ok st ∧
      (∀ e, env.loadModel = .error e → st.model = none) ∧
      (∀ m, env.loadModel = .ok m → st.model = some m) ∧
      (∀ e, env.fetchClassNames = .error e → st.classNames = fallbackClassNames) ∧
      (∀ l, env.fetchClassNames = .ok l → st.classNames = l) ∧
      fallbackClassNames.length = 5 := by
  refine ⟨{ model := match env.loadModel with
              | .ok m => some m
              | .error _ => none
            classNames := match env.fetchClassNames with
              | .ok l => l
              | .error _ => fallbackClassNames },
          by simp only [bootstrap, h], ?_, ?_, ?_, ?_, rfl⟩
  · intro e he
    simp [he]
  · intro m hm
    simp [hm]
  · intro e he
    simp [he]
  · intro l hl
    simp [hl]

/-- C5 witness: both recoverable failures at once still bootstrap, in
degraded mode with the fallback class names. -/
theorem c5_witness :
    (BootstrapEnv.downloadModelFiles (M := Unit)
        ⟨.ok (), .error "load failed", .error "fetch failed"⟩ = .ok ()) ∧
    (∃ st, bootstrap (M := Unit)
        ⟨.ok (), .error "load failed", .error "fetch failed"⟩ = .ok st ∧
      (∀ e, (Except.error "load failed" : Except String Unit) = .error e →
        st.model = none) ∧
      (∀ m, (Except.error "load failed" : Except String Unit) = .ok m →
        st.model = some m) ∧
      (∀ e, (Except.error "fetch failed" : Except String (List String)) =
          .error e → st.classNames = fallbackClassNames) ∧
      (∀ l, (Except.error "fetch failed" : Except String (List String)) =
          .ok l → st.classNames = l) ∧
      fallbackClassNames.length = 5) :=
  ⟨rfl, c5_bootstrap_amended ⟨.ok (), .error "load failed", .error "fetch failed"⟩ rfl⟩

/-- C6 counterexample: the health endpoint sets no headers at all, so its
response does not carry the permissive CORS header, refuting the claim
that every response of the service carries it. -/
theorem c6_counterexample :
    ("Access-Control-Allow-Origin", "*") ∉ (health_check true).headers ∧
    (health_check true).status = 200 := by decide

/-- C6 (amended): OPTIONS /predict is an empty 204 with the permissive
CORS headers, every POST /predict outcome carries the permissive origin
header, and GET /health carries no CORS header. -/
theorem c6_cors_amended {M : Type} (env : PredictEnv M)
    (rj : Option PyJson) (b : Bool) :
    predict_disease env .OPTIONS rj = ⟨.empty, 204, corsPreflightHeaders⟩ ∧
    ("Access-Control-Allow-Origin", "*") ∈ corsPreflightHeaders ∧
    ("Access-Control-Allow-Origin", "*") ∈
      (predict_disease env .POST rj).headers ∧
    ("Access-Control-Allow-Origin", "*") ∉ (health_check b).headers := by
  refine ⟨rfl, by decide, ?_, by cases b <;> decide⟩
  simp only [predict_disease]
  cases h : predictTry env rj with
  | error e => simp [corsOriginHeaders]
  | ok o => cases o <;> simp [corsOriginHeaders]

/-- C1 counterexample: a request whose body is the JSON number 5 is JSON
and has no image field, yet the membership test raises a TypeError inside
the try block, so the handler returns 500, not 400. -/
theorem c1_counterexample :
    (predict_disease envNoModel .POST (some (.num 5))).status = 500 ∧
    (predict_disease envNoModel .POST (some (.num 5))).status ≠ 400 ∧
    (predict_disease envNoModel .POST (some (.num 5))).body =
      .errorJson "argument of type int is not iterable" := by decide

/-- C1 (amended): for bodies that are absent, not JSON, or parse to a
JSON object, the POST handler returns 400 with the fixed error body
exactly when the body is missing or the object has no image key; 500 with
the raised message exactly when the image value is present and decoding
raises or the prediction step raises; and one of 200, 400, 500 always. -/
theorem c1_post_responses {M : Type} (env : PredictEnv M) (rj : Option PyJson)
    (hobj : rj = none ∨ ∃ fs, rj = some (.obj fs)) :
    ((predict_disease env .POST rj).status = 400 ↔
      (rj = none ∨ ∃ fs, rj = some (.obj fs) ∧
        fs.find? (fun p => p.1 == "image") = none)) ∧
    ((predict_disease env .POST rj).status = 400 →
      (predict_disease env .POST rj).body = .errorJson "No image provided") ∧
    ((predict_disease env .POST rj).status = 500 ↔
      (∃ fs v, rj = some (.obj fs) ∧
        fs.find? (fun p => p.1 == "image") = some v ∧
        ((∃ e, env.decodeImage v.2 = .error e) ∨
         (env.decodeImage v.2 = .ok () ∧ ∃ e, chooseDisease env = .error e)))) ∧
    (∀ fs v e, rj = some (.obj fs) →
      fs.find? (fun p => p.1 == "image") = some v →
      env.decodeImage v.2 = .error e →
      predict_disease env .POST rj = ⟨.errorJson e, 500, corsOriginHeaders⟩) ∧
    (∀ fs v e, rj = some (.obj fs) →
      fs.find? (fun p => p.1 == "image") = some v →
      env.decodeImage v.2 = .ok () → chooseDisease env = .error e →
      predict_disease env .POST rj = ⟨.errorJson e, 500, corsOriginHeaders⟩) ∧
    ((predict_disease env .POST rj).status = 200 ∨
     (predict_disease env .POST rj).status = 400 ∨
     (predict_disease env .POST rj).status = 500) := by
  rcases hobj with rfl | ⟨fs, rfl⟩
  · have hresp : predict_disease env .POST none =
        ⟨.errorJson "No image provided", 400, corsOriginHeaders⟩ := rfl
    rw [hresp]
    simp
  · cases hfk : fs.find? (fun p => p.1 == "image") with
    | none =>
      have hresp : predict_disease env .POST (some (.obj fs)) =
          ⟨.errorJson "No image provided", 400, corsOriginHeaders⟩ := by
        simp only [predict_disease, predictTry_obj_noKey env fs hfk]
      rw [hresp]
      refine ⟨iff_of_true rfl (Or.inr ⟨fs, rfl, hfk⟩), by simp,
              iff_of_false ?_ ?_, ?_, ?_, by simp⟩
      · simp
      · rintro ⟨fs0, v0, heq, hfind, _⟩
        simp only [Option.some.injEq, PyJson.obj.injEq] at heq
        subst heq
        rw [hfk] at hfind
        exact Option.noConfusion hfind
      · intro fs0 v0 e heq hfind hdec
        simp only [Option.some.injEq, PyJson.obj.injEq] at heq
        subst heq
        rw [hfk] at hfind
        exact Option.noConfusion hfind
      · intro fs0 v0 e heq hfind hdec hch
        simp only [Option.some.injEq, PyJson.obj.injEq] at heq
        subst heq
        rw [hfk] at hfind
        exact Option.noConfusion hfind
    | some v =>
      have ht := predictTry_obj_found env fs v hfk
      cases hdu : env.decodeImage v.2 with
      | error e0 =>
        have hresp : predict_disease env .POST (some (.obj fs)) =
            ⟨.errorJson e0, 500, corsOriginHeaders⟩ := by
          simp only [predict_disease, ht, hdu]
        rw [hresp]
        refine ⟨iff_of_false ?_ ?_, by simp,
                iff_of_true rfl ⟨fs, v, rfl, hfk, Or.inl ⟨e0, hdu⟩⟩,
                ?_, ?_, by simp⟩
        · simp
        · rintro (h | ⟨fs0, heq, hfind⟩)
          · exact Option.noConfusion h
          · simp only [Option.some.injEq, PyJson.obj.injEq] at heq
            subst heq
            rw [hfk] at hfind
            exact Option.noConfusion hfind
        · intro fs0 v0 e heq hfind hdec
          simp only [Option.some.injEq, PyJson.obj.injEq] at heq
          subst heq
          rw [hfk] at hfind
          obtain rfl : v = v0 := by
            injection hfind
          rw [hdu] at hdec
          injection hdec with h
          rw [h]
        · intro fs0 v0 e heq hfind hdec hch
          simp only [Option.some.injEq, PyJson.obj.injEq] at heq
          subst heq
          rw [hfk] at hfind
          obtain rfl : v = v0 := by
            injection hfind
          rw [hdu] at hdec
          exact Except.noConfusion hdec
      | ok u =>
        cases u
        cases hcc : chooseDisease env with
        | error e0 =>
          have hresp : predict_disease env .POST (some (.obj fs)) =
              ⟨.errorJson e0, 500, corsOriginHeaders⟩ := by
            simp only [predict_disease, ht, hdu, hcc]
          rw [hresp]
          refine ⟨iff_of_false ?_ ?_, by simp,
                  iff_of_true rfl ⟨fs, v, rfl, hfk, Or.inr ⟨hdu, e0, rfl⟩⟩,
                  ?_, ?_, by simp⟩
          · simp
          · rintro (h | ⟨fs0, heq, hfind⟩)
            · exact Option.noConfusion h
            · simp only [Option.some.injEq, PyJson.obj.injEq] at heq
              subst heq
              rw [hfk] at hfind
              exact Option.noConfusion hfind
          · intro fs0 v0 e heq hfind hdec
            simp only [Option.some.injEq, PyJson.obj.injEq] at heq
            subst heq
            rw [hfk] at hfind
            obtain rfl : v = v0 := by
              injection hfind
            rw [hdu] at hdec
            exact Except.noConfusion hdec
          · intro fs0 v0 e heq hfind hdec hch
            injection hch with h
            rw [h]
        | ok pr =>
          obtain ⟨dc, conf⟩ := pr
          have hresp : predict_disease env .POST (some (.obj fs)) =
              ⟨.predJson (buildResult dc conf env.diseaseInfo), 200,
               corsOriginHeaders⟩ := by
            simp only [predict_disease, ht, hdu, hcc]
          rw [hresp]
          refine ⟨iff_of_false ?_ ?_, by simp, iff_of_false ?_ ?_,
                  ?_, ?_, by simp⟩
          · simp
          · rintro (h | ⟨fs0, heq, hfind⟩)
            · exact Option.noConfusion h
            · simp only [Option.some.injEq, PyJson.obj.injEq] at heq
              subst heq
              rw [hfk] at hfind
              exact Option.noConfusion hfind
          · simp
          · rintro ⟨fs0, v0, heq, hfind, hdisj⟩
            simp only [Option.some.injEq, PyJson.obj.injEq] at heq
            subst heq
            rw [hfk] at hfind
            obtain rfl : v = v0 := by
              injection hfind
            rcases hdisj with ⟨e, hde⟩ | ⟨hdo, e, hce⟩
            · rw [hdu] at hde
              exact Except.noConfusion hde
            · exact Except.noConfusion hce
          · intro fs0 v0 e heq hfind hdec
            simp only [Option.some.injEq, PyJson.obj.injEq] at heq
            subst heq
            rw [hfk] at hfind
            obtain rfl : v = v0 := by
              injection hfind
            rw [hdu] at hdec
            exact Except.noConfusion hdec
          · intro fs0 v0 e heq hfind hdec hch
            exact Except.noConfusion hch

/-- C1 witness: a JSON object body carrying an image field satisfies the
restriction of the amended claim, and the handler answers with one of the
three documented statuses. -/
theorem c1_witness :
    (some (PyJson.obj [("image", PyJson.str "aGVsbG8=")]) = none ∨
      ∃ fs, some (PyJson.obj [("image", PyJson.str "aGVsbG8=")]) =
        some (PyJson.obj fs)) ∧
    ((predict_disease envNoModel .POST
        (some (PyJson.obj [("image", PyJson.str "aGVsbG8=")]))).status = 200 ∨
     (predict_disease envNoModel .POST
        (some (PyJson.obj [("image", PyJson.str "aGVsbG8=")]))).status = 400 ∨
     (predict_disease envNoModel .POST
        (some (PyJson.obj [("image", PyJson.str "aGVsbG8=")]))).status = 500) :=
  ⟨Or.inr ⟨_, rfl⟩,
   (c1_post_responses envNoModel _ (Or.inr ⟨_, rfl⟩)).2.2.2.2.2⟩

theorem pySplitAux_length_single (c0 : Char) :
    ∀ (l : List Char) (fuel : Nat) (acc : List Char), l.length ≤ fuel →
      (pySplitAux [c0] fuel acc l).length = 1 + l.count c0 := by
  intro l
  induction l with
  | nil =>
    intro fuel acc h
    cases fuel <;> simp [pySplitAux]
  | cons c rest ih =>
    intro fuel acc h
    match fuel with
    | 0 => simp at h
    | fu+1 =>
      simp only [List.length_cons] at h
      have hrest : rest.length ≤ fu := by omega
      have hstep : pySplitAux [c0] (fu+1) acc (c :: rest) =
          if [c0] ≠ [] ∧ [c0].isPrefixOf (c :: rest) = true
          then acc.reverse :: pySplitAux [c0] fu [] ((c :: rest).drop [c0].length)
          else pySplitAux [c0] fu (c :: acc) rest := rfl
      rw [hstep]
      by_cases hc : c0 = c
      · subst hc
        rw [if_pos ⟨by simp, by simp [List.isPrefixOf]⟩]
        simp only [List.length_singleton, List.drop_succ_cons, List.length_nil,
          List.drop_zero, List.length_cons]
        rw [ih fu [] hrest, List.count_cons]
        simp
        omega
      · rw [if_neg]
        · rw [ih fu (c :: acc) hrest, List.count_cons]
          have hne : (c == c0) = false :=
            beq_eq_false_iff_ne.mpr (fun hcc => hc hcc.symm)
          rw [hne]
          simp
        · rintro ⟨-, hp⟩
          simp [List.isPrefixOf] at hp
          exact hc hp

theorem pySplitOn_length_single (l : List Char) (c0 : Char) :
    (pySplitOn l [c0]).length = 1 + l.count c0 :=
  pySplitAux_length_single c0 l l.length [] le_rfl

theorem csvRowOf_isSome (k : String) (h : 3 ≤ k.toList.count '/') :
    (csvRowOf k).isSome := by
  unfold csvRowOf
  have hl := pySplitOn_length_single k.toList '/'
  rw [if_pos (by omega)]
  simp

theorem filterMap_length_all_some {α β : Type} (g : α → Option β) :
    ∀ (l : List α), (∀ x ∈ l, (g x).isSome) → (l.filterMap g).length = l.length := by
  intro l
  induction l with
  | nil => simp
  | cons x xs ih =>
    intro h
    rw [List.filterMap_cons]
    cases hx : g x with
    | none =>
      have hs := h x (by simp)
      rw [hx] at hs
      simp at hs
    | some b =>
      simp only [List.length_cons]
      rw [ih (fun y hy => h y (by simp [hy]))]

theorem suffix_append_iff_of_le {α : Type} (e a f : List α)
    (h : e.length ≤ f.length) : e <:+ a ++ f ↔ e <:+ f := by
  constructor
  · rintro ⟨t, ht⟩
    have hl : a.length ≤ t.length := by
      have hlen := congrArg List.length ht
      simp at hlen
      omega
    have hpre : a <+: t :=
      List.prefix_of_prefix_length_le
        (by rw [ht]; exact List.prefix_append a f)
        (List.prefix_append t e) hl
    obtain ⟨u, rfl⟩ := hpre
    rw [List.append_assoc] at ht
    exact ⟨u, List.append_inj_right ht rfl⟩
  · intro hs
    exact hs.trans (List.suffix_append a f)

theorem suffix_eq_of_length_eq {α : Type} {e1 e2 l : List α}
    (h1 : e1 <:+ l) (h2 : e2 <:+ l) (h : e1.length = e2.length) : e1 = e2 :=
  (List.suffix_of_suffix_length_le h1 h2 (le_of_eq h)).eq_of_length h

theorem isSuffixOf_append_of_le (a f e : List Char) (h : e.length ≤ f.length) :
    e.isSuffixOf (a ++ f) = e.isSuffixOf f := by
  rw [Bool.eq_iff_iff]
  simp only [List.isSuffixOf_iff_suffix]
  exact suffix_append_iff_of_le e a f h

theorem csv_imp_upload (s : List Char)
    (h : pyEndsWithAny s csvExts = true) :
    pyEndsWithAny s uploadExts = true := by
  obtain ⟨e, hmem, hsuf⟩ := List.any_eq_true.mp h
  refine List.any_eq_true.mpr ⟨e, ?_, hsuf⟩
  simp only [csvExts, List.mem_cons, List.not_mem_nil, or_false] at hmem
  simp only [uploadExts]
  rcases hmem with rfl | rfl | rfl
  · simp
  · simp
  · simp

theorem csv_any_append_len4 (a f : List Char) (h4 : f.length = 4)
    (hne : "jpeg".toList ≠ f) :
    pyEndsWithAny (a ++ f) csvExts = pyEndsWithAny f csvExts := by
  have hjR : (".jpeg".toList).isSuffixOf f = false := by
    rw [Bool.eq_false_iff]
    intro hc
    rw [List.isSuffixOf_iff_suffix] at hc
    have := hc.length_le
    rw [h4] at this
    simp at this
  have hjL : (".jpeg".toList).isSuffixOf (a ++ f) = false := by
    rw [Bool.eq_false_iff]
    intro hc
    rw [List.isSuffixOf_iff_suffix] at hc
    have h1 : ("jpeg".toList) <:+ a ++ f :=
      (by decide : "jpeg".toList <:+ ".jpeg".toList).trans hc
    have h2 : f <:+ a ++ f := List.suffix_append a f
    exact hne (suffix_eq_of_length_eq h1 h2 (by rw [h4]; decide))
  simp only [pyEndsWithAny, csvExts, List.any_cons, List.any_nil]
  rw [isSuffixOf_append_of_le a f ".jpg".toList (by rw [h4]; decide),
      isSuffixOf_append_of_le a f ".png".toList (by rw [h4]; decide),
      hjL, hjR]

theorem pyEndsWithAny_append_csv (a f : List Char)
    (hf : pyEndsWithAny f uploadExts = true) :
    pyEndsWithAny (a ++ f) csvExts = pyEndsWithAny f csvExts := by
  obtain ⟨e, hmem, hsuf⟩ := List.any_eq_true.mp hf
  have hsuf : e <:+ f := by
    rw [← List.isSuffixOf_iff_suffix]
    exact hsuf
  have hlen4 : 4 ≤ e.length := by
    simp only [uploadExts, List.mem_cons, List.not_mem_nil, or_false] at hmem
    rcases hmem with rfl | rfl | rfl | rfl | rfl | rfl
    · decide
    · decide
    · decide
    · decide
    · decide
    · decide
  have hf4 : 4 ≤ f.length := le_trans hlen4 hsuf.length_le
  by_cases h5 : 5 ≤ f.length
  · simp only [pyEndsWithAny, csvExts, List.any_cons, List.any_nil]
    rw [isSuffixOf_append_of_le a f ".jpg".toList (le_trans (by decide) hf4),
        isSuffixOf_append_of_le a f ".jpeg".toList (le_trans (by decide) h5),
        isSuffixOf_append_of_le a f ".png".toList (le_trans (by decide) hf4)]
  · have hfl : f.length = 4 := by omega
    have hef : e = f := hsuf.eq_of_length (by
      have := hsuf.length_le
      omega)
    subst hef
    simp only [uploadExts, List.mem_cons, List.not_mem_nil, or_false] at hmem
    rcases hmem with rfl | rfl | rfl | rfl | rfl | rfl
    · exact csv_any_append_len4 a _ (by decide) (by decide)
    · exact absurd hfl (by decide)
    · exact csv_any_append_len4 a _ (by decide) (by decide)
    · exact csv_any_append_len4 a _ (by decide) (by decide)
    · exact absurd hfl (by decide)
    · exact csv_any_append_len4 a _ (by decide) (by decide)

theorem asString_eq_iff (l : List Char) (s : String) :
    l.asString = s ↔ l = s.data := by
  constructor
  · intro h
    exact congrArg String.data h
  · intro h
    subst h
    rfl

theorem gcsKeyFor_train (f : String) (hnb : '\\' ∉ f.toList) :
    gcsKeyFor "train" f = "datasets/plantvillage/train/" ++ f := by
  unfold gcsKeyFor
  rw [asString_eq_iff]
  have hmapf : f.data.map (fun c => if c = '\\' then '/' else c) = f.data := by
    conv_rhs => rw [← List.map_id f.data]
    apply List.map_congr_left
    intro c hc
    simp only [id]
    rw [if_neg]
    intro hcc
    exact hnb (hcc ▸ hc)
  show ((GCS_PREFIX ++ "/" ++ "train" ++ "/" ++ f).data.map _) = _
  simp only [String.data_append, List.map_append]
  rw [hmapf]
  congr 1

theorem key_prefix_ok (f : String) (hnb : '\\' ∉ f.toList) :
    csvListPrefixStr.toList.isPrefixOf (gcsKeyFor "train" f).toList = true := by
  rw [gcsKeyFor_train f hnb]
  have h1 : csvListPrefixStr.toList = "datasets/plantvillage/train/".toList := by
    decide
  rw [h1]
  have h2 : ("datasets/plantvillage/train/" ++ f).toList =
      "datasets/plantvillage/train/".toList ++ f.toList := by
    simp [String.toList, String.data_append]
  rw [h2, List.isPrefixOf_iff_prefix]
  exact List.prefix_append _ _

theorem key_ext_eq (f : String) (hnb : '\\' ∉ f.toList)
    (hu : pyEndsWithAny f.toList uploadExts = true) :
    pyEndsWithAny (gcsKeyFor "train" f).toList csvExts =
      pyEndsWithAny f.toList csvExts := by
  rw [gcsKeyFor_train f hnb]
  have h2 : ("datasets/plantvillage/train/" ++ f).toList =
      "datasets/plantvillage/train/".toList ++ f.toList := by
    simp [String.toList, String.data_append]
  rw [h2]
  exact pyEndsWithAny_append_csv _ _ hu

theorem key_row_isSome (f : String) (hnb : '\\' ∉ f.toList) :
    (csvRowOf (gcsKeyFor "train" f)).isSome := by
  rw [gcsKeyFor_train f hnb]
  apply csvRowOf_isSome
  have h2 : ("datasets/plantvillage/train/" ++ f).toList =
      "datasets/plantvillage/train/".toList ++ f.toList := by
    simp [String.toList, String.data_append]
  rw [h2, List.count_append]
  have h3 : "datasets/plantvillage/train/".toList.count '/' = 3 := by decide
  omega

theorem csvLines_count (files : List String)
    (hnb : ∀ f ∈ files, '\\' ∉ f.toList) :
    (csvLines (uploadSplitKeys "train" files)).length =
      (files.filter (fun f => pyEndsWithAny f.toList csvExts)).length := by
  induction files with
  | nil => rfl
  | cons f rest ih =>
    have hnbf : '\\' ∉ f.toList := hnb f (by simp)
    have ihr := ih (fun x hx => hnb x (by simp [hx]))
    by_cases hu : pyEndsWithAny f.toList uploadExts = true
    · have hud : pyEndsWithAny f.data uploadExts = true := hu
      have hkeys : uploadSplitKeys "train" (f :: rest) =
          gcsKeyFor "train" f :: uploadSplitKeys "train" rest := by
        simp [uploadSplitKeys, List.filter_cons, hu, hud]
      rw [hkeys]
      have h1 := key_prefix_ok f hnbf
      have h1d : csvListPrefixStr.data.isPrefixOf
          (gcsKeyFor "train" f).data = true := h1
      have h2 := key_ext_eq f hnbf hu
      have h2d : pyEndsWithAny (gcsKeyFor "train" f).data csvExts =
          pyEndsWithAny f.data csvExts := h2
      have h3 := key_row_isSome f hnbf
      obtain ⟨row, hrow⟩ := Option.isSome_iff_exists.mp h3
      by_cases hcsv : pyEndsWithAny f.toList csvExts = true
      · have hcsvd : pyEndsWithAny f.data csvExts = true := hcsv
        have hstep : csvLines (gcsKeyFor "train" f ::
            uploadSplitKeys "train" rest) =
            row :: csvLines (uploadSplitKeys "train" rest) := by
          simp [csvLines, List.filter_cons, h1, h1d, h2, h2d, hcsv, hcsvd,
            List.filterMap_cons, hrow]
        rw [hstep]
        simp only [List.length_cons, List.filter_cons, hcsv, if_pos]
        rw [ihr]
      · have hcsvf : pyEndsWithAny f.toList csvExts = false := by
          cases hcc : pyEndsWithAny f.toList csvExts
          · rfl
          · exact absurd hcc hcsv
        have hcsvfd : pyEndsWithAny f.data csvExts = false := hcsvf
        have hstep : csvLines (gcsKeyFor "train" f ::
            uploadSplitKeys "train" rest) =
            csvLines (uploadSplitKeys "train" rest) := by
          simp [csvLines, List.filter_cons, h1, h1d, h2, h2d, hcsvf, hcsvfd]
        rw [hstep, ihr]
        simp [List.filter_cons, hcsvf, hcsvfd]
    · have huf : pyEndsWithAny f.data uploadExts = false := by
        cases hval : pyEndsWithAny f.toList uploadExts
        · exact hval
        · exact absurd hval hu
      have hkeys : uploadSplitKeys "train" (f :: rest) =
          uploadSplitKeys "train" rest := by
        simp [uploadSplitKeys, List.filter_cons, huf]
      rw [hkeys, ihr]
      have hcsvf : pyEndsWithAny f.toList csvExts = false := by
        cases hcc : pyEndsWithAny f.toList csvExts
        · rfl
        · exact absurd (csv_imp_upload _ hcc) hu
      have hcsvfd : pyEndsWithAny f.data csvExts = false := hcsvf
      simp [List.filter_cons, hcsvf, hcsvfd]

/-- C7 counterexample: a training image with uppercase extension JPG is
uploaded (1 object key) but yields no manifest row, so the manifest row
count differs from the number of uploaded training images. -/
theorem c7_counterexample :
    (uploadSplitKeys "train" ["ClassA/leaf.JPG"]).length = 1 ∧
    (csvLines (uploadSplitKeys "train" ["ClassA/leaf.JPG"])).length = 0 ∧
    (csvLines (uploadSplitKeys "train" ["ClassA/leaf.JPG"])).length ≠
      (uploadSplitKeys "train" ["ClassA/leaf.JPG"]).length := by decide

/-- C7 (amended): every uploaded key follows the deterministic scheme
prefix slash split slash relative path, and the manifest CSV has exactly
one row per uploaded training image whose name ends in a lowercase jpg,
jpeg or png extension; uppercase-extension uploads are omitted from the
manifest. -/
theorem c7_upload_and_manifest (files : List String)
    (hnb : ∀ f ∈ files, '\\' ∉ f.toList) :
    (∀ k ∈ uploadSplitKeys "train" files, ∃ f ∈ files,
        pyEndsWithAny f.toList uploadExts = true ∧
        k = gcsKeyFor "train" f ∧
        k = "datasets/plantvillage/train/" ++ f) ∧
    (∀ f ∈ files, pyEndsWithAny f.toList uploadExts = true →
        gcsKeyFor "train" f ∈ uploadSplitKeys "train" files) ∧
    (csvLines (uploadSplitKeys "train" files)).length =
      (files.filter (fun f => pyEndsWithAny f.toList csvExts)).length := by
  refine ⟨?_, ?_, csvLines_count files hnb⟩
  · intro k hk
    obtain ⟨f, hf, rfl⟩ := List.mem_map.mp hk
    obtain ⟨hfm, hfe⟩ := List.mem_filter.mp hf
    exact ⟨f, hfm, hfe, rfl, gcsKeyFor_train f (hnb f hfm)⟩
  · intro f hf hu
    exact List.mem_map_of_mem _ (List.mem_filter.mpr ⟨hf, hu⟩)

/-- C7 witness: two files, one lowercase and one uppercase extension; the
manifest keeps exactly the lowercase one. -/
theorem c7_witness :
    (∀ f ∈ ["ClassA/leaf.jpg", "ClassB/leaf.JPG"], '\\' ∉ f.toList) ∧
    (csvLines (uploadSplitKeys "train"
        ["ClassA/leaf.jpg", "ClassB/leaf.JPG"])).length =
      (["ClassA/leaf.jpg", "ClassB/leaf.JPG"].filter
        (fun f => pyEndsWithAny f.toList csvExts)).length :=
  ⟨by decide,
   (c7_upload_and_manifest ["ClassA/leaf.jpg", "ClassB/leaf.JPG"]
      (by decide)).2.2⟩
